import Mathlib

/-
Verification of the jobly backend model layer.

The development shallowly embeds the helper `sqlForPartialUpdate`
(helpers/sql.js) and the model classes `Company` (models/company.js),
`User` (models/user.js) and `Job` (models/job.js).  The database is
modelled as explicit lists of rows; every SQL statement issued by the
code is interpreted against that state.  JavaScript objects that are
iterated with Object.keys / Object.values are modelled as association
lists in iteration order.
-/

deriving instance DecidableEq for Except

/-- Scalar values carried by update-data objects and SQL parameters
(strings, numbers, booleans, SQL NULL). -/
inductive Jval where
  | str (s : String)
  | num (n : Int)
  | bool (b : Bool)
  | null
deriving Repr, DecidableEq

/-- JavaScript truthiness of a scalar value. -/
def Jval.truthy : Jval → Bool
  | .str s => s ≠ ""
  | .num n => n ≠ 0
  | .bool b => b
  | .null => false

/-- The three error classes of expressError.js that the model layer throws. -/
inductive ErrKind where
  | badRequest
  | notFound
  | unauthorized
deriving Repr, DecidableEq

/-- An error raised by the model layer: its class and its message string. -/
structure AppError where
  kind : ErrKind
  message : String
deriving Repr, DecidableEq

/-- JS truthiness of an optional string argument (undefined and the empty
string are falsy). -/
def truthyS : Option String → Bool
  | some s => s ≠ ""
  | none => false

/-- JS truthiness of an optional integer argument (undefined and 0 are
falsy). -/
def truthyI : Option Int → Bool
  | some n => n ≠ 0
  | none => false

/-- Column-name resolution in sqlForPartialUpdate:
`jsToSql[colName] || colName` — the mapped name when present and truthy,
the field name itself otherwise. -/
def resolveCol (jsToSql : List (String × String)) (colName : String) : String :=
  match jsToSql.lookup colName with
  | some s => if s = "" then colName else s
  | none => colName

/-- helpers/sql.js sqlForPartialUpdate: from the update-data object (in key
iteration order) and the js-to-sql name mapping, build the SET clause and
the positional value list; BadRequest on an empty data object. -/
def sqlForPartialUpdate (dataToUpdate : List (String × Jval))
    (jsToSql : List (String × String)) : Except AppError (String × List Jval) :=
  let keys := dataToUpdate.map Prod.fst
  if keys.length = 0 then
    .error ⟨.badRequest, "No data"⟩
  else
    let cols := keys.enum.map (fun p =>
      "\x22" ++ resolveCol jsToSql p.2 ++ "\x22=$" ++ toString (p.1 + 1))
    .ok (String.intercalate ", " cols, dataToUpdate.map Prod.snd)

/-- A row of the companies table (API field names). -/
structure Company where
  handle : String
  name : String
  description : String
  numEmployees : Int
  logoUrl : String
deriving Repr, DecidableEq

/-- A row of the users table (API field names); `password` holds the stored
bcrypt hash. -/
structure User where
  username : String
  password : String
  firstName : String
  lastName : String
  email : String
  isAdmin : Bool
deriving Repr, DecidableEq

/-- A row of the jobs table (API field names); salary and equity are
nullable columns. -/
structure Job where
  id : Nat
  title : String
  salary : Option Int
  equity : Option Rat
  companyHandle : String
deriving Repr, DecidableEq

/-- The persistent state: the four tables.  An applications row is a
(username, job_id) pair. -/
structure DBState where
  companies : List Company
  users : List User
  jobs : List Job
  applications : List (String × Nat)
deriving Repr, DecidableEq

/-- A user record as returned to callers, with the password field removed
(`delete user.password`). -/
structure PublicUser where
  username : String
  firstName : String
  lastName : String
  email : String
  isAdmin : Bool
deriving Repr, DecidableEq

/-- Projection dropping the password column. -/
def User.toPublic (u : User) : PublicUser :=
  ⟨u.username, u.firstName, u.lastName, u.email, u.isAdmin⟩

/-- Lower-casing of an ASCII letter; models the case folding performed by
ILIKE. -/
def lowerChar (c : Char) : Char :=
  if 65 ≤ c.toNat ∧ c.toNat ≤ 90 then Char.ofNat (c.toNat + 32) else c

/-- Semantics of the SQL predicate `col ILIKE '%' || $k || '%'`:
case-insensitive substring containment of the parameter in the column. -/
def ilikeContains (pat target : String) : Bool :=
  decide (pat.data.map lowerChar <:+: target.data.map lowerChar)

/-- Sort key of a text column: its code points, compared lexicographically
(the order used by ORDER BY on text). -/
def strKey (s : String) : List ℕ :=
  s.data.map Char.toNat

/-- Row order produced by `ORDER BY name` on the companies table. -/
def companyLe (a b : Company) : Prop :=
  strKey a.name ≤ strKey b.name

instance : DecidableRel companyLe := fun a b => by
  unfold companyLe; infer_instance

instance : IsTotal Company companyLe :=
  ⟨fun a b => le_total (strKey a.name) (strKey b.name)⟩

instance : IsTrans Company companyLe :=
  ⟨fun _ _ _ hab hbc => le_trans hab hbc⟩

/-- Interpretation of the WHERE clause assembled by Company.findAll: the
conjunction of the filters appended for each truthy argument.  The
min/max filters are the strict comparisons `num_employees > $k` and
`num_employees < $k` of the source. -/
def companyRowMatches (name : Option String) (minEmployees maxEmployees : Option Int)
    (c : Company) : Bool :=
  (!truthyS name || ilikeContains (name.getD "") c.name) &&
  (!truthyI minEmployees || decide (minEmployees.getD 0 < c.numEmployees)) &&
  (!truthyI maxEmployees || decide (c.numEmployees < maxEmployees.getD 0))

/-- models/company.js Company.findAll: filter the companies table by the
assembled WHERE clause and sort by name. -/
def Company.findAll (name : Option String) (minEmployees maxEmployees : Option Int)
    (s : DBState) : List Company :=
  List.insertionSort companyLe
    (s.companies.filter (companyRowMatches name minEmployees maxEmployees))

/-- models/company.js Company.create: duplicate-handle check, then INSERT
returning the new row. -/
def Company.create (c : Company) (s : DBState) :
    Except AppError Company × DBState :=
  if (s.companies.find? (fun x => x.handle = c.handle)).isSome then
    (.error ⟨.badRequest, "Duplicate company: " ++ c.handle⟩, s)
  else
    (.ok c, { s with companies := s.companies ++ [c] })

/-- models/company.js Company.get: single-row SELECT by handle. -/
def Company.get (handle : String) (s : DBState) : Except AppError Company :=
  match s.companies.find? (fun c => c.handle = handle) with
  | some c => .ok c
  | none => .error ⟨.notFound, "No company: " ++ handle⟩

/-- The js-to-sql name mapping passed by Company.update. -/
def companyJsToSql : List (String × String) :=
  [("numEmployees", "num_employees"), ("logoUrl", "logo_url")]

/-- Semantics of one `SET col = value` assignment on a companies row;
assignments of an unexpected type or column leave the row unchanged. -/
def Company.setCol (c : Company) (col : String) (v : Jval) : Company :=
  if col = "name" then
    match v with | .str s => { c with name := s } | _ => c
  else if col = "description" then
    match v with | .str s => { c with description := s } | _ => c
  else if col = "num_employees" then
    match v with | .num n => { c with numEmployees := n } | _ => c
  else if col = "logo_url" then
    match v with | .str s => { c with logoUrl := s } | _ => c
  else c

/-- Semantics of the full SET list generated by sqlForPartialUpdate from
`data` on a companies row. -/
def Company.applySet (data : List (String × Jval)) (c : Company) : Company :=
  data.foldl (fun c kv => Company.setCol c (resolveCol companyJsToSql kv.1) kv.2) c

/-- models/company.js Company.update: build the SET clause (BadRequest on
empty data), run the UPDATE ... WHERE handle = $n RETURNING statement, and
NotFound when no row matched. -/
def Company.update (handle : String) (data : List (String × Jval)) (s : DBState) :
    Except AppError Company × DBState :=
  match sqlForPartialUpdate data companyJsToSql with
  | .error e => (.error e, s)
  | .ok _ =>
    let matched := s.companies.filter (fun c => c.handle = handle)
    let updatedRows :=
      s.companies.map (fun c => if c.handle = handle then Company.applySet data c else c)
    let s2 := { s with companies := updatedRows }
    match matched with
    | [] => (.error ⟨.notFound, "No company: " ++ handle⟩, s2)
    | c :: _ => (.ok (Company.applySet data c), s2)

/-- models/company.js Company.remove: DELETE ... RETURNING handle, NotFound
when no row was deleted. -/
def Company.remove (handle : String) (s : DBState) :
    Except AppError Unit × DBState :=
  let deleted := s.companies.filter (fun c => c.handle = handle)
  let s2 := { s with companies := s.companies.filter (fun c => ¬ c.handle = handle) }
  match deleted with
  | [] => (.error ⟨.notFound, "No company: " ++ handle⟩, s2)
  | _ :: _ => (.ok (), s2)

/-- The fixed error thrown by User.authenticate on any failure. -/
def invalidCredsError : AppError :=
  ⟨.unauthorized, "Invalid username/password"⟩

/-- Whether the supplied credentials are valid against the stored rows:
the username row exists and bcrypt.compare accepts the password against
its stored hash.  `cmp password storedHash` models bcrypt.compare. -/
def validCreds (cmp : String → String → Bool) (username pw : String) (s : DBState) : Bool :=
  match s.users.find? (fun x => x.username = username) with
  | some u => cmp pw u.password
  | none => false

/-- models/user.js User.authenticate: fetch the row by username, compare
the password against the stored hash, return the row without its password
field; one fixed Unauthorized error on unknown user or wrong password. -/
def User.authenticate (cmp : String → String → Bool) (username pw : String)
    (s : DBState) : Except AppError PublicUser :=
  match s.users.find? (fun x => x.username = username) with
  | some u =>
    if cmp pw u.password then .ok u.toPublic
    else .error invalidCredsError
  | none => .error invalidCredsError

/-- models/user.js User.register: duplicate-username check, hash the
supplied password (`hashFn` models bcrypt.hash), INSERT, return the new
row without the password column.  The argument record carries the
plaintext password. -/
def User.register (hashFn : String → String) (u : User) (s : DBState) :
    Except AppError PublicUser × DBState :=
  if (s.users.find? (fun x => x.username = u.username)).isSome then
    (.error ⟨.badRequest, "Duplicate username: " ++ u.username⟩, s)
  else
    let stored := { u with password := hashFn u.password }
    (.ok stored.toPublic, { s with users := s.users ++ [stored] })

/-- models/user.js User.get: fetch the row by username, then collect the
job ids of the rows of applications with that username. -/
def User.get (username : String) (s : DBState) :
    Except AppError (PublicUser × List Nat) :=
  match s.users.find? (fun u => u.username = username) with
  | none => .error ⟨.notFound, "No user: " ++ username⟩
  | some u =>
    .ok (u.toPublic, (s.applications.filter (fun a => a.1 = username)).map Prod.snd)

/-- The js-to-sql name mapping passed by User.update. -/
def userJsToSql : List (String × String) :=
  [("firstName", "first_name"), ("lastName", "last_name"), ("isAdmin", "is_admin")]

/-- The pre-processing step of User.update: when a truthy password field
is present in the data object it is replaced by its bcrypt hash in
place. -/
def hashObjPassword (hashFn : String → String) (data : List (String × Jval)) :
    List (String × Jval) :=
  if ((data.lookup "password").map Jval.truthy).getD false then
    data.map (fun kv =>
      if kv.1 = "password" then
        (kv.1, match kv.2 with | .str s => Jval.str (hashFn s) | v => v)
      else kv)
  else data

/-- Semantics of one `SET col = value` assignment on a users row;
assignments of an unexpected type or column leave the row unchanged. -/
def User.setCol (u : User) (col : String) (v : Jval) : User :=
  if col = "username" then
    match v with | .str s => { u with username := s } | _ => u
  else if col = "password" then
    match v with | .str s => { u with password := s } | _ => u
  else if col = "first_name" then
    match v with | .str s => { u with firstName := s } | _ => u
  else if col = "last_name" then
    match v with | .str s => { u with lastName := s } | _ => u
  else if col = "email" then
    match v with | .str s => { u with email := s } | _ => u
  else if col = "is_admin" then
    match v with | .bool b => { u with isAdmin := b } | _ => u
  else u

/-- Semantics of the full SET list generated by sqlForPartialUpdate from
`data` on a users row. -/
def User.applySet (data : List (String × Jval)) (u : User) : User :=
  data.foldl (fun u kv => User.setCol u (resolveCol userJsToSql kv.1) kv.2) u

/-- models/user.js User.update: hash a supplied password, build the SET
clause (BadRequest on empty data), run the UPDATE ... WHERE username = $n
RETURNING statement, NotFound when no row matched, and strip the password
field from the returned row. -/
def User.update (hashFn : String → String) (username : String)
    (data : List (String × Jval)) (s : DBState) :
    Except AppError PublicUser × DBState :=
  let data2 := hashObjPassword hashFn data
  match sqlForPartialUpdate data2 userJsToSql with
  | .error e => (.error e, s)
  | .ok _ =>
    let matched := s.users.filter (fun u => u.username = username)
    let updatedRows :=
      s.users.map (fun u => if u.username = username then User.applySet data2 u else u)
    let s2 := { s with users := updatedRows }
    match matched with
    | [] => (.error ⟨.notFound, "No user: " ++ username⟩, s2)
    | u :: _ => (.ok (User.toPublic (User.applySet data2 u)), s2)

/-- models/user.js User.remove: DELETE ... RETURNING username, NotFound
when no row was deleted. -/
def User.remove (username : String) (s : DBState) :
    Except AppError Unit × DBState :=
  let deleted := s.users.filter (fun u => u.username = username)
  let s2 := { s with users := s.users.filter (fun u => ¬ u.username = username) }
  match deleted with
  | [] => (.error ⟨.notFound, "No user: " ++ username⟩, s2)
  | _ :: _ => (.ok (), s2)

/-- models/user.js User.applyToJob: check the job id exists, then check
the username exists (each failing with NotFound), then INSERT one
applications row. -/
def User.applyToJob (username : String) (jobId : Nat) (s : DBState) :
    Except AppError Unit × DBState :=
  match s.jobs.find? (fun j => j.id = jobId) with
  | none => (.error ⟨.notFound, "Job with id: " ++ toString jobId ++ " not found"⟩, s)
  | some _ =>
    match s.users.find? (fun u => u.username = username) with
    | none => (.error ⟨.notFound, "No username with id: " ++ username⟩, s)
    | some _ =>
      (.ok (), { s with applications := s.applications ++ [(username, jobId)] })

/-- A row produced by the SELECT of Job.findAll: the jobs columns plus the
company name obtained by LEFT JOIN (NULL when no company matches). -/
structure JobRow where
  id : Nat
  title : String
  salary : Option Int
  equity : Option Rat
  companyHandle : String
  companyName : Option String
deriving Repr, DecidableEq

/-- The LEFT JOIN of a jobs row with the companies table. -/
def jobRowOf (s : DBState) (j : Job) : JobRow :=
  { id := j.id, title := j.title, salary := j.salary, equity := j.equity,
    companyHandle := j.companyHandle,
    companyName := (s.companies.find? (fun c => c.handle = j.companyHandle)).map Company.name }

/-- Semantics of the SQL comparison `salary >= $k`: false on a NULL
salary, as in SQL. -/
def salaryCond (m : Int) (sal : Option Int) : Bool :=
  match sal with
  | some v => decide (m ≤ v)
  | none => false

/-- Semantics of the literal SQL predicate `equity > 0`: false on a NULL
equity, as in SQL. -/
def equityCond (eq : Option Rat) : Bool :=
  match eq with
  | some e => decide (0 < e)
  | none => false

/-- Interpretation of the WHERE clause assembled by Job.findAll: the
conjunction of the filters appended for each truthy argument. -/
def jobRowMatches (minSalary : Option Int) (hasEquity : Bool) (title : Option String)
    (j : JobRow) : Bool :=
  (!truthyS title || ilikeContains (title.getD "") j.title) &&
  (!truthyI minSalary || salaryCond (minSalary.getD 0) j.salary) &&
  (!hasEquity || equityCond j.equity)

/-- Sort key of the first ORDER BY column of Job.findAll, `c.name`: company
names in code-point order, with the NULL produced by the LEFT JOIN sorting
last (Postgres default for ascending order). -/
def jobNameKey (j : JobRow) : List ℕ :=
  match j.companyName with
  | some n => 0 :: strKey n
  | none => [1]

/-- Row order produced by `ORDER BY c.name, j.title` on the joined rows. -/
def jobRowLe (a b : JobRow) : Prop :=
  jobNameKey a < jobNameKey b ∨
    (jobNameKey a = jobNameKey b ∧ strKey a.title ≤ strKey b.title)

instance : DecidableRel jobRowLe := fun a b => by
  unfold jobRowLe; infer_instance

instance : IsTrans JobRow jobRowLe := by
  refine ⟨fun a b c hab hbc => ?_⟩
  rcases hab with h1 | ⟨e1, t1⟩
  · rcases hbc with h2 | ⟨e2, t2⟩
    · exact Or.inl (lt_trans h1 h2)
    · exact Or.inl (e2 ▸ h1)
  · rcases hbc with h2 | ⟨e2, t2⟩
    · exact Or.inl (e1 ▸ h2)
    · exact Or.inr ⟨e1.trans e2, le_trans t1 t2⟩

instance : IsTotal JobRow jobRowLe := by
  refine ⟨fun a b => ?_⟩
  rcases lt_trichotomy (jobNameKey a) (jobNameKey b) with h | h | h
  · exact Or.inl (Or.inl h)
  · rcases le_total (strKey a.title) (strKey b.title) with ht | ht
    · exact Or.inl (Or.inr ⟨h, ht⟩)
    · exact Or.inr (Or.inr ⟨h.symm, ht⟩)
  · exact Or.inr (Or.inl h)

/-- models/job.js Job.findAll: join each jobs row with its company, filter
by the assembled WHERE clause, and sort by company name then job title. -/
def Job.findAll (minSalary : Option Int) (hasEquity : Bool) (title : Option String)
    (s : DBState) : List JobRow :=
  List.insertionSort jobRowLe
    ((s.jobs.map (jobRowOf s)).filter (jobRowMatches minSalary hasEquity title))

/-- The filters and values lists assembled by Job.findAll before the query:
one predicate string per truthy argument, pushed in source order (title,
minSalary, hasEquity), each placeholder numbered by the length of the
values list after its value is pushed; the hasEquity predicate is a
literal with no value. -/
def jobBuildFilters (minSalary : Option Int) (hasEquity : Bool) (title : Option String) :
    List String × List Jval :=
  let values : List Jval := []
  let filters : List String := []
  let step1 :=
    if truthyS title then
      (values ++ [Jval.str (title.getD "")],
       filters ++ ["title ILIKE \x27%\x27 ||$" ++ toString (values.length + 1) ++ " || \x27%\x27"])
    else (values, filters)
  let step2 :=
    if truthyI minSalary then
      (step1.1 ++ [Jval.num (minSalary.getD 0)],
       step1.2 ++ ["salary >= $" ++ toString (step1.1.length + 1)])
    else step1
  let step3 :=
    if hasEquity then (step2.1, step2.2 ++ ["equity > 0 "]) else step2
  (step3.2, step3.1)

/-- The WHERE clause assembled from the filters list: empty for no
filters, otherwise "WHERE " followed by each filter and a space, with
"AND " before every filter except the first. -/
def concatenatedFilters (filters : List String) : String :=
  if filters.length > 0 then
    filters.enum.foldl
      (fun acc p => acc ++ (if p.1 ≠ 0 then "AND " else "") ++ (p.2 ++ " "))
      "WHERE "
  else ""

/-- The record returned by Job.get: the jobs columns with companyHandle
removed (`delete job.companyHandle`) and the embedded company row
(undefined when the handle matches no company). -/
structure JobDetail where
  id : Nat
  title : String
  salary : Option Int
  equity : Option Rat
  company : Option Company
deriving Repr, DecidableEq

/-- models/job.js Job.get: fetch the jobs row by id (NotFound when
absent), then fetch and embed its company row. -/
def Job.get (id : Nat) (s : DBState) : Except AppError JobDetail :=
  match s.jobs.find? (fun j => j.id = id) with
  | none => .error ⟨.notFound, "No job with Id: " ++ toString id⟩
  | some j =>
    .ok { id := j.id, title := j.title, salary := j.salary, equity := j.equity,
          company := s.companies.find? (fun c => c.handle = j.companyHandle) }

/-- Semantics of one `SET col = value` assignment on a jobs row;
assignments of an unexpected type or column leave the row unchanged. -/
def Job.setCol (j : Job) (col : String) (v : Jval) : Job :=
  if col = "title" then
    match v with | .str s => { j with title := s } | _ => j
  else if col = "salary" then
    match v with
    | .num n => { j with salary := some n }
    | .null => { j with salary := none }
    | _ => j
  else if col = "equity" then
    match v with
    | .num n => { j with equity := some (n : Rat) }
    | .null => { j with equity := none }
    | _ => j
  else j

/-- Semantics of the full SET list generated by sqlForPartialUpdate from
`data` on a jobs row (Job.update passes an empty js-to-sql mapping). -/
def Job.applySet (data : List (String × Jval)) (j : Job) : Job :=
  data.foldl (fun j kv => Job.setCol j (resolveCol [] kv.1) kv.2) j

/-- models/job.js Job.update: build the SET clause (BadRequest on empty
data), run the UPDATE ... WHERE id = $n RETURNING statement, NotFound when
no row matched. -/
def Job.update (id : Nat) (data : List (String × Jval)) (s : DBState) :
    Except AppError Job × DBState :=
  match sqlForPartialUpdate data [] with
  | .error e => (.error e, s)
  | .ok _ =>
    let matched := s.jobs.filter (fun j => j.id = id)
    let updatedRows :=
      s.jobs.map (fun j => if j.id = id then Job.applySet data j else j)
    let s2 := { s with jobs := updatedRows }
    match matched with
    | [] => (.error ⟨.notFound, "No job: " ++ toString id⟩, s2)
    | j :: _ => (.ok (Job.applySet data j), s2)

/-- models/job.js Job.remove: DELETE ... RETURNING id, NotFound when no
row was deleted. -/
def Job.remove (id : Nat) (s : DBState) :
    Except AppError Unit × DBState :=
  let deleted := s.jobs.filter (fun j => j.id = id)
  let s2 := { s with jobs := s.jobs.filter (fun j => ¬ j.id = id) }
  match deleted with
  | [] => (.error ⟨.notFound, "No job: " ++ toString id⟩, s2)
  | _ :: _ => (.ok (), s2)

/-- Spec-side reconstruction of the SET assignment list: for keys
k1..kN, the entry at index i quotes the resolved column name of the
(i+1)-st key and carries the placeholder number i+1. -/
def specAssignments (js : List (String × String)) (keys : List String) : List String :=
  (List.range keys.length).map (fun i =>
    "\x22" ++ resolveCol js (keys.getD i "") ++ "\x22=$" ++ toString (i + 1))

/-- Concrete update data of the documented example. -/
def exampleData : List (String × Jval) :=
  [("firstName", Jval.str "Aliya"), ("age", Jval.num 32)]

/-- Concrete name-mapping of the documented example. -/
def exampleMap : List (String × String) :=
  [("firstName", "first_name")]

/-- The state with four empty tables. -/
def emptyDB : DBState := ⟨[], [], [], []⟩

/-- The error class of a model-operation result. -/
def errKindOf {α : Type} : Except AppError α → Option ErrKind
  | .error e => some e.kind
  | .ok _ => none

/-- A small concrete state with one company, one user with an
application, and one job. -/
def demoCompany : Company := ⟨"anderson", "Anderson LLC", "d", 120, "u"⟩

/-- A second concrete company for list examples. -/
def demoCompany2 : Company := ⟨"baker", "Baker Inc", "d2", 3, "u2"⟩

/-- A concrete user whose stored password is "hashed-secret". -/
def demoUser : User := ⟨"alice", "hashed-secret", "Alice", "A", "a@x.io", false⟩

/-- A concrete job at demoCompany. -/
def demoJob : Job := ⟨7, "Engineer", some 90000, some 1, "anderson"⟩

/-- A second concrete job with no equity and no salary. -/
def demoJob2 : Job := ⟨8, "Clerk", none, none, "baker"⟩

/-- The concrete demo state. -/
def demoDB : DBState :=
  ⟨[demoCompany, demoCompany2], [demoUser], [demoJob, demoJob2],
   [("alice", 7)]⟩

/-- A fresh company for the C7 witness. -/
def freshCompany : Company := ⟨"newco", "New Co", "d", 9, "u"⟩

/-- A fresh user for the C7 witness. -/
def freshUser : User := ⟨"bob", "plainpw", "Bob", "B", "b@x.io", false⟩

/-- The comparison function of the C6 witness: accepts a password p
against a stored hash h exactly when h is "hashed-" followed by p. -/
def demoCompare (p storedHash : String) : Bool :=
  storedHash = "hashed-" ++ p

/-- Concatenation of SQL fragments (pushed filters joined in order). -/
def sqlJoin : List String → String
  | [] => ""
  | x :: xs => x ++ sqlJoin xs

/-- The salary filter accepts a row exactly when its salary column is
non-NULL and at least the bound. -/
def salaryAtLeast (m : Int) (r : JobRow) : Prop :=
  ∃ v, r.salary = some v ∧ m ≤ v

/-- The equity filter accepts a row exactly when its equity column is
non-NULL and positive. -/
def equityPositive (r : JobRow) : Prop :=
  ∃ e, r.equity = some e ∧ 0 < e

/-- The joined row of the demo engineering job. -/
def demoJobRow : JobRow := jobRowOf demoDB demoJob

/-- Characterisation of sqlForPartialUpdate on non-empty data: the SET
clause joins one assignment per key (built by resolveCol with placeholder
index + 1) with ", ", and the values are the data values in order. -/
theorem sqlForPartialUpdate_ok (data : List (String × Jval))
    (js : List (String × String)) (h : data ≠ []) :
    sqlForPartialUpdate data js =
      .ok (String.intercalate ", "
            ((data.map Prod.fst).enum.map (fun p =>
              "\x22" ++ resolveCol js p.2 ++ "\x22=$" ++ toString (p.1 + 1))),
           data.map Prod.snd) := by
  unfold sqlForPartialUpdate
  simp [List.length_eq_zero, h]

/-- The assignment list built by the code coincides with the spec-side
reconstruction. -/
theorem enum_assignments_eq (js : List (String × String)) (keys : List String) :
    keys.enum.map (fun p =>
      "\x22" ++ resolveCol js p.2 ++ "\x22=$" ++ toString (p.1 + 1)) =
      specAssignments js keys := by
  apply List.ext_getElem?
  intro i
  rcases Nat.lt_or_ge i keys.length with hi | hi
  · simp [specAssignments, List.getElem?_map, List.getElem?_enum,
      List.getElem?_range hi, List.getElem?_eq_getElem hi,
      List.getD_eq_getElem?_getD]
  · have h1 : keys[i]? = none := List.getElem?_eq_none hi
    have h2 : (List.range keys.length)[i]? = none := by
      apply List.getElem?_eq_none; simpa using hi
    simp [specAssignments, List.getElem?_map, List.getElem?_enum, h1, h2]

/-- C1: for every non-empty data mapping (keys in iteration order) and
any name-mapping, sqlForPartialUpdate returns a setCols string consisting
of exactly one quoted assignment per key joined by ", ", with placeholders
numbered 1..N in key order, and a values list equal to the data values in
the same order. -/
theorem sqlForPartialUpdate_clause_shape (data : List (String × Jval))
    (js : List (String × String)) (h : data ≠ []) :
    sqlForPartialUpdate data js =
      .ok (String.intercalate ", " (specAssignments js (data.map Prod.fst)),
           data.map Prod.snd) ∧
    (specAssignments js (data.map Prod.fst)).length = data.length ∧
    ∀ i, i < data.length →
      (specAssignments js (data.map Prod.fst))[i]? =
        some ("\x22" ++ resolveCol js ((data.map Prod.fst).getD i "") ++
          "\x22=$" ++ toString (i + 1)) := by
  refine ⟨?_, ?_, ?_⟩
  · rw [sqlForPartialUpdate_ok data js h, enum_assignments_eq]
  · simp [specAssignments]
  · intro i hi
    have hr : (List.range data.length)[i]? = some i := List.getElem?_range hi
    simp only [specAssignments, List.length_map, List.getElem?_map, hr,
      Option.map_some']

/-- Witness for C1: the documented example evaluates to the expected
clause and value list. -/
theorem sqlForPartialUpdate_clause_shape_witness :
    exampleData ≠ [] ∧
    sqlForPartialUpdate exampleData exampleMap =
      .ok ("\x22first_name\x22=$1, \x22age\x22=$2",
           [Jval.str "Aliya", Jval.num 32]) :=
  ⟨by decide, by
    have h := (sqlForPartialUpdate_clause_shape exampleData exampleMap (by decide)).1
    exact h.trans (by decide)⟩

/-- C9: for every name-mapping, sqlForPartialUpdate on the empty data
mapping fails with a BadRequest error. -/
theorem sqlForPartialUpdate_empty_badRequest (js : List (String × String)) :
    sqlForPartialUpdate [] js = .error ⟨.badRequest, "No data"⟩ := rfl

/-- C3 counterexample: the field "a" appears in the name-mapping (mapped
to the empty string), yet the generated assignment uses the field name
"a", not the mapped name, because the code falls back on any falsy mapped
value (`jsToSql[colName] || colName`). -/
theorem resolveCol_falsy_mapping_counterexample :
    ([("a", "")] : List (String × String)).lookup "a" = some "" ∧
    sqlForPartialUpdate [("a", Jval.num 1)] [("a", "")] =
      .ok ("\x22a\x22=$1", [Jval.num 1]) ∧
    ("\x22a\x22=$1" : String) ≠ "\x22\x22=$1" :=
  ⟨by decide, by decide, by decide⟩

/-- C3 (amended): a field that appears in the name-mapping with a
non-empty (truthy) mapped name uses the mapped storage name; a field that
is absent from the name-mapping, or whose mapped name is the empty
string, uses its own name unchanged; the assignment generated for a field
is built from this resolution; and the documented example yields set
clause "first_name"=$1, "age"=$2 with values [Aliya, 32]. -/
theorem sqlForPartialUpdate_column_mapping (js : List (String × String))
    (k m : String) (v : Jval) :
    (js.lookup k = some m → m ≠ "" → resolveCol js k = m) ∧
    (js.lookup k = some "" → resolveCol js k = k) ∧
    (js.lookup k = none → resolveCol js k = k) ∧
    sqlForPartialUpdate [(k, v)] js =
      .ok ("\x22" ++ resolveCol js k ++ "\x22=$" ++ toString 1, [v]) ∧
    sqlForPartialUpdate exampleData exampleMap =
      .ok ("\x22first_name\x22=$1, \x22age\x22=$2",
           [Jval.str "Aliya", Jval.num 32]) := by
  refine ⟨?_, ?_, ?_, ?_, by decide⟩
  · intro h hm; simp [resolveCol, h, hm]
  · intro h; simp [resolveCol, h]
  · intro h; simp [resolveCol, h]
  · rw [sqlForPartialUpdate_ok _ _ (by simp)]
    rfl

/-- Witness for the amended C3: concrete mapped, empty-mapped and
unmapped fields, and the singleton clause. -/
theorem sqlForPartialUpdate_column_mapping_witness :
    resolveCol [("firstName", "first_name")] "firstName" = "first_name" ∧
    resolveCol [("a", "")] "a" = "a" ∧
    resolveCol [("firstName", "first_name")] "age" = "age" ∧
    sqlForPartialUpdate [("age", Jval.num 32)] [("firstName", "first_name")] =
      .ok ("\x22age\x22=$1", [Jval.num 32]) := by
  have h1 := sqlForPartialUpdate_column_mapping
    [("firstName", "first_name")] "firstName" "first_name" (Jval.num 32)
  have h2 := sqlForPartialUpdate_column_mapping [("a", "")] "a" "" (Jval.num 32)
  have h3 := sqlForPartialUpdate_column_mapping
    [("firstName", "first_name")] "age" "" (Jval.num 32)
  refine ⟨h1.1 (by decide) (by decide), h2.2.1 (by decide), ?_, ?_⟩
  · exact h3.2.2.1 (by decide)
  · exact (h3.2.2.2.1).trans (by decide)

/-- Auxiliary: mapping a function that fixes every element leaves a list
unchanged. -/
theorem map_eq_self_of_fix {α : Type} (l : List α) (f : α → α)
    (h : ∀ a ∈ l, f a = a) : l.map f = l := by
  induction l with
  | nil => rfl
  | cons x xs ih =>
    simp only [List.map_cons, h x (by simp)]
    rw [ih (fun a ha => h a (by simp [ha]))]

/-- The password pre-hashing step keeps the data object non-empty. -/
theorem hashObjPassword_ne_nil (hashFn : String → String)
    (data : List (String × Jval)) (h : data ≠ []) :
    hashObjPassword hashFn data ≠ [] := by
  unfold hashObjPassword
  split
  · simpa using h
  · exact h

/-- Company.get on a nonexistent handle fails with NotFound. -/
theorem company_get_notFound (handle : String) (s : DBState)
    (h : ∀ c ∈ s.companies, c.handle ≠ handle) :
    Company.get handle s = .error ⟨.notFound, "No company: " ++ handle⟩ := by
  have hf : s.companies.find? (fun c => c.handle = handle) = none := by
    rw [List.find?_eq_none]; intro x hx; simpa using h x hx
  simp [Company.get, hf]

/-- Company.update on a nonexistent handle with non-empty data fails with
NotFound and leaves the state unchanged. -/
theorem company_update_notFound (handle : String) (data : List (String × Jval))
    (s : DBState) (hd : data ≠ []) (h : ∀ c ∈ s.companies, c.handle ≠ handle) :
    Company.update handle data s =
      (.error ⟨.notFound, "No company: " ++ handle⟩, s) := by
  unfold Company.update
  rw [sqlForPartialUpdate_ok _ _ hd]
  have hfil : s.companies.filter (fun c => c.handle = handle) = [] := by
    rw [List.filter_eq_nil_iff]; intro a ha; simpa using h a ha
  have hmap : s.companies.map
      (fun c => if c.handle = handle then Company.applySet data c else c) =
      s.companies :=
    map_eq_self_of_fix _ _ (fun a ha => by simp [h a ha])
  simp [hfil, hmap]

/-- Company.remove on a nonexistent handle fails with NotFound and leaves
the state unchanged. -/
theorem company_remove_notFound (handle : String) (s : DBState)
    (h : ∀ c ∈ s.companies, c.handle ≠ handle) :
    Company.remove handle s =
      (.error ⟨.notFound, "No company: " ++ handle⟩, s) := by
  unfold Company.remove
  have hfil : s.companies.filter (fun c => c.handle = handle) = [] := by
    rw [List.filter_eq_nil_iff]; intro a ha; simpa using h a ha
  have hkeep : s.companies.filter (fun c => !decide (c.handle = handle)) =
      s.companies := by
    rw [List.filter_eq_self]; intro a ha; simp [h a ha]
  simp [hfil, hkeep]

/-- User.get on a nonexistent username fails with NotFound. -/
theorem user_get_notFound (username : String) (s : DBState)
    (h : ∀ u ∈ s.users, u.username ≠ username) :
    User.get username s = .error ⟨.notFound, "No user: " ++ username⟩ := by
  have hf : s.users.find? (fun u => u.username = username) = none := by
    rw [List.find?_eq_none]; intro x hx; simpa using h x hx
  simp [User.get, hf]

/-- User.update on a nonexistent username with non-empty data fails with
NotFound and leaves the state unchanged. -/
theorem user_update_notFound (hashFn : String → String) (username : String)
    (data : List (String × Jval)) (s : DBState) (hd : data ≠ [])
    (h : ∀ u ∈ s.users, u.username ≠ username) :
    User.update hashFn username data s =
      (.error ⟨.notFound, "No user: " ++ username⟩, s) := by
  have hok := sqlForPartialUpdate_ok (hashObjPassword hashFn data) userJsToSql
    (hashObjPassword_ne_nil hashFn data hd)
  have hfil : s.users.filter (fun u => u.username = username) = [] := by
    rw [List.filter_eq_nil_iff]; intro a ha; simpa using h a ha
  have hmap : s.users.map
      (fun u => if u.username = username
        then User.applySet (hashObjPassword hashFn data) u else u) =
      s.users :=
    map_eq_self_of_fix _ _ (fun a ha => by simp [h a ha])
  simp [User.update, hok, hfil, hmap]

/-- User.remove on a nonexistent username fails with NotFound and leaves
the state unchanged. -/
theorem user_remove_notFound (username : String) (s : DBState)
    (h : ∀ u ∈ s.users, u.username ≠ username) :
    User.remove username s =
      (.error ⟨.notFound, "No user: " ++ username⟩, s) := by
  unfold User.remove
  have hfil : s.users.filter (fun u => u.username = username) = [] := by
    rw [List.filter_eq_nil_iff]; intro a ha; simpa using h a ha
  have hkeep : s.users.filter (fun u => !decide (u.username = username)) =
      s.users := by
    rw [List.filter_eq_self]; intro a ha; simp [h a ha]
  simp [hfil, hkeep]

/-- Job.get on a nonexistent id fails with NotFound. -/
theorem job_get_notFound (id : Nat) (s : DBState)
    (h : ∀ j ∈ s.jobs, j.id ≠ id) :
    Job.get id s = .error ⟨.notFound, "No job with Id: " ++ toString id⟩ := by
  have hf : s.jobs.find? (fun j => j.id = id) = none := by
    rw [List.find?_eq_none]; intro x hx; simpa using h x hx
  simp [Job.get, hf]

/-- Job.update on a nonexistent id with non-empty data fails with
NotFound and leaves the state unchanged. -/
theorem job_update_notFound (id : Nat) (data : List (String × Jval))
    (s : DBState) (hd : data ≠ []) (h : ∀ j ∈ s.jobs, j.id ≠ id) :
    Job.update id data s =
      (.error ⟨.notFound, "No job: " ++ toString id⟩, s) := by
  unfold Job.update
  rw [sqlForPartialUpdate_ok _ _ hd]
  have hfil : s.jobs.filter (fun j => j.id = id) = [] := by
    rw [List.filter_eq_nil_iff]; intro a ha; simpa using h a ha
  have hmap : s.jobs.map
      (fun j => if j.id = id then Job.applySet data j else j) = s.jobs :=
    map_eq_self_of_fix _ _ (fun a ha => by simp [h a ha])
  simp [hfil, hmap]

/-- Job.remove on a nonexistent id fails with NotFound and leaves the
state unchanged. -/
theorem job_remove_notFound (id : Nat) (s : DBState)
    (h : ∀ j ∈ s.jobs, j.id ≠ id) :
    Job.remove id s = (.error ⟨.notFound, "No job: " ++ toString id⟩, s) := by
  unfold Job.remove
  have hfil : s.jobs.filter (fun j => j.id = id) = [] := by
    rw [List.filter_eq_nil_iff]; intro a ha; simpa using h a ha
  have hkeep : s.jobs.filter (fun j => !decide (j.id = id)) = s.jobs := by
    rw [List.filter_eq_self]; intro a ha; simp [h a ha]
  simp [hfil, hkeep]

/-- C4 counterexample: on a state whose companies table is empty, so that
handle "c1" does not exist, update with the empty data mapping fails with
BadRequest ("No data"), not NotFound — the claim fails for empty update
data. -/
theorem update_empty_data_counterexample :
    emptyDB.companies = [] ∧
    Company.update "c1" [] emptyDB =
      (.error ⟨.badRequest, "No data"⟩, emptyDB) ∧
    ErrKind.badRequest ≠ ErrKind.notFound :=
  ⟨rfl, by decide, by decide⟩

/-- C4 (amended): for every nonexistent key, get, update with any
NON-EMPTY update data, and remove on the Company, User and Job models
fail with a NotFound error and leave the stored state unchanged. -/
theorem crud_missing_key_notFound (s : DBState) (hashFn : String → String)
    (handle username : String) (id : Nat) (data : List (String × Jval))
    (hdata : data ≠ [])
    (hc : ∀ c ∈ s.companies, c.handle ≠ handle)
    (hu : ∀ u ∈ s.users, u.username ≠ username)
    (hj : ∀ j ∈ s.jobs, j.id ≠ id) :
    errKindOf (Company.get handle s) = some .notFound ∧
    errKindOf (Company.update handle data s).1 = some .notFound ∧
    (Company.update handle data s).2 = s ∧
    errKindOf (Company.remove handle s).1 = some .notFound ∧
    (Company.remove handle s).2 = s ∧
    errKindOf (User.get username s) = some .notFound ∧
    errKindOf (User.update hashFn username data s).1 = some .notFound ∧
    (User.update hashFn username data s).2 = s ∧
    errKindOf (User.remove username s).1 = some .notFound ∧
    (User.remove username s).2 = s ∧
    errKindOf (Job.get id s) = some .notFound ∧
    errKindOf (Job.update id data s).1 = some .notFound ∧
    (Job.update id data s).2 = s ∧
    errKindOf (Job.remove id s).1 = some .notFound ∧
    (Job.remove id s).2 = s := by
  refine ⟨?_, ?_, ?_, ?_, ?_, ?_, ?_, ?_, ?_, ?_, ?_, ?_, ?_, ?_, ?_⟩
  · rw [company_get_notFound handle s hc]; rfl
  · rw [company_update_notFound handle data s hdata hc]; rfl
  · rw [company_update_notFound handle data s hdata hc]
  · rw [company_remove_notFound handle s hc]; rfl
  · rw [company_remove_notFound handle s hc]
  · rw [user_get_notFound username s hu]; rfl
  · rw [user_update_notFound hashFn username data s hdata hu]; rfl
  · rw [user_update_notFound hashFn username data s hdata hu]
  · rw [user_remove_notFound username s hu]; rfl
  · rw [user_remove_notFound username s hu]
  · rw [job_get_notFound id s hj]; rfl
  · rw [job_update_notFound id data s hdata hj]; rfl
  · rw [job_update_notFound id data s hdata hj]
  · rw [job_remove_notFound id s hj]; rfl
  · rw [job_remove_notFound id s hj]

/-- Witness for the amended C4: the nonexistent handle "nope", username
"zed" and id 99 on the demo state. -/
theorem crud_missing_key_notFound_witness :
    (([("name", Jval.str "X")] : List (String × Jval)) ≠ [] ∧
      (∀ c ∈ demoDB.companies, c.handle ≠ "nope") ∧
      (∀ u ∈ demoDB.users, u.username ≠ "zed") ∧
      (∀ j ∈ demoDB.jobs, j.id ≠ 99)) ∧
    errKindOf (Company.get "nope" demoDB) = some .notFound ∧
    (Company.update "nope" [("name", Jval.str "X")] demoDB).2 = demoDB ∧
    errKindOf (User.get "zed" demoDB) = some .notFound ∧
    (User.remove "zed" demoDB).2 = demoDB ∧
    errKindOf (Job.update 99 [("name", Jval.str "X")] demoDB).1 = some .notFound := by
  have h := crud_missing_key_notFound demoDB (fun s => s) "nope" "zed" 99
    [("name", Jval.str "X")] (by decide) (by decide) (by decide) (by decide)
  exact ⟨⟨by decide, by decide, by decide, by decide⟩,
    h.1, h.2.2.1, h.2.2.2.2.2.1, h.2.2.2.2.2.2.2.2.2.1, h.2.2.2.2.2.2.2.2.2.2.2.1⟩

/-- Auxiliary: a find? with a satisfied predicate returns some row. -/
theorem find?_isSome_of_exists {α : Type} (p : α → Bool) (l : List α)
    (h : ∃ x ∈ l, p x = true) : ∃ x, l.find? p = some x :=
  Option.isSome_iff_exists.mp (List.find?_isSome.mpr h)

/-- C7: creating a company handle or registering a username that is
fresh in the state succeeds, and creating the same primary key a second
time fails with a BadRequest error while leaving the state — including
the row created by the first call — unchanged. -/
theorem create_duplicate_rejected (s : DBState) (c c2 : Company) (u u2 : User)
    (hashFn : String → String)
    (hch : c2.handle = c.handle) (hun : u2.username = u.username)
    (hcfresh : ∀ x ∈ s.companies, x.handle ≠ c.handle)
    (hufresh : ∀ x ∈ s.users, x.username ≠ u.username) :
    (Company.create c s).1 = .ok c ∧
    c ∈ (Company.create c s).2.companies ∧
    Company.create c2 (Company.create c s).2 =
      (.error ⟨.badRequest, "Duplicate company: " ++ c2.handle⟩,
       (Company.create c s).2) ∧
    c ∈ (Company.create c2 (Company.create c s).2).2.companies ∧
    (User.register hashFn u s).1 =
      .ok (User.toPublic { u with password := hashFn u.password }) ∧
    { u with password := hashFn u.password } ∈ (User.register hashFn u s).2.users ∧
    User.register hashFn u2 (User.register hashFn u s).2 =
      (.error ⟨.badRequest, "Duplicate username: " ++ u2.username⟩,
       (User.register hashFn u s).2) ∧
    { u with password := hashFn u.password } ∈
      (User.register hashFn u2 (User.register hashFn u s).2).2.users := by
  have hcnone : s.companies.find? (fun x => x.handle = c.handle) = none := by
    rw [List.find?_eq_none]; intro x hx; simpa using hcfresh x hx
  have hunone : s.users.find? (fun x => x.username = u.username) = none := by
    rw [List.find?_eq_none]; intro x hx; simpa using hufresh x hx
  have hc1 : Company.create c s =
      (.ok c, { s with companies := s.companies ++ [c] }) := by
    simp [Company.create, hcnone]
  have hcdup : (s.companies ++ [c]).find? (fun x => x.handle = c2.handle) = some c := by
    have h1 : s.companies.find? (fun x => decide (x.handle = c2.handle)) = none := by
      rw [List.find?_eq_none]; intro x hx
      simpa [hch] using hcfresh x hx
    have h2 : List.find? (fun x => decide (x.handle = c2.handle)) [c] = some c :=
      List.find?_cons_of_pos _ (by simp [hch])
    rw [List.find?_append, h1, h2]
    rfl
  have hc2 : Company.create c2 { s with companies := s.companies ++ [c] } =
      (.error ⟨.badRequest, "Duplicate company: " ++ c2.handle⟩,
       { s with companies := s.companies ++ [c] }) := by
    simp [Company.create, hcdup]
  have hu1 : User.register hashFn u s =
      (.ok (User.toPublic { u with password := hashFn u.password }),
       { s with users := s.users ++ [{ u with password := hashFn u.password }] }) := by
    simp [User.register, hunone]
  have hudup : (s.users ++ [{ u with password := hashFn u.password }]).find?
      (fun x => x.username = u2.username) =
      some { u with password := hashFn u.password } := by
    have h1 : s.users.find? (fun x => decide (x.username = u2.username)) = none := by
      rw [List.find?_eq_none]; intro x hx
      simpa [hun] using hufresh x hx
    have h2 : List.find? (fun x => decide (x.username = u2.username))
        [{ u with password := hashFn u.password }] =
        some { u with password := hashFn u.password } :=
      List.find?_cons_of_pos _ (by simp [hun])
    rw [List.find?_append, h1, h2]
    rfl
  have hu2 : User.register hashFn u2
      { s with users := s.users ++ [{ u with password := hashFn u.password }] } =
      (.error ⟨.badRequest, "Duplicate username: " ++ u2.username⟩,
       { s with users := s.users ++ [{ u with password := hashFn u.password }] }) := by
    simp [User.register, hudup]
  refine ⟨by rw [hc1], by rw [hc1]; simp, by rw [hc1, hc2], ?_,
    by rw [hu1], by rw [hu1]; simp, by rw [hu1, hu2], ?_⟩
  · rw [hc1, hc2]; simp
  · rw [hu1, hu2]; simp

/-- Witness for C7 on the demo state: a fresh handle and username are
created once and rejected with unchanged state on the second attempt. -/
theorem create_duplicate_rejected_witness :
    ((∀ x ∈ demoDB.companies, x.handle ≠ freshCompany.handle) ∧
     (∀ x ∈ demoDB.users, x.username ≠ freshUser.username)) ∧
    (Company.create freshCompany demoDB).1 = .ok freshCompany ∧
    Company.create freshCompany (Company.create freshCompany demoDB).2 =
      (.error ⟨.badRequest, "Duplicate company: " ++ freshCompany.handle⟩,
       (Company.create freshCompany demoDB).2) ∧
    freshCompany ∈
      (Company.create freshCompany
        (Company.create freshCompany demoDB).2).2.companies := by
  have h := create_duplicate_rejected demoDB freshCompany freshCompany
    freshUser freshUser (fun s => s) rfl rfl (by decide) (by decide)
  exact ⟨⟨by decide, by decide⟩, h.1, h.2.2.1, h.2.2.2.1⟩

/-- C5: applyToJob fails with NotFound when the job id does not exist;
fails with NotFound when the job exists but the username does not; and
when both exist appends exactly one new (username, jobId) application
row, leaving every other table unchanged. -/
theorem applyToJob_spec (username : String) (jobId : Nat) (s : DBState) :
    ((∀ j ∈ s.jobs, j.id ≠ jobId) →
      (User.applyToJob username jobId s).1 =
        .error ⟨.notFound, "Job with id: " ++ toString jobId ++ " not found"⟩ ∧
      (User.applyToJob username jobId s).2 = s) ∧
    ((∃ j ∈ s.jobs, j.id = jobId) → (∀ u ∈ s.users, u.username ≠ username) →
      (User.applyToJob username jobId s).1 =
        .error ⟨.notFound, "No username with id: " ++ username⟩ ∧
      (User.applyToJob username jobId s).2 = s) ∧
    ((∃ j ∈ s.jobs, j.id = jobId) → (∃ u ∈ s.users, u.username = username) →
      (User.applyToJob username jobId s).1 = .ok () ∧
      (User.applyToJob username jobId s).2.applications =
        s.applications ++ [(username, jobId)] ∧
      (User.applyToJob username jobId s).2.applications.length =
        s.applications.length + 1 ∧
      (User.applyToJob username jobId s).2.companies = s.companies ∧
      (User.applyToJob username jobId s).2.users = s.users ∧
      (User.applyToJob username jobId s).2.jobs = s.jobs) := by
  refine ⟨?_, ?_, ?_⟩
  · intro hj
    have hfind : s.jobs.find? (fun j => j.id = jobId) = none := by
      rw [List.find?_eq_none]; intro x hx; simpa using hj x hx
    simp [User.applyToJob, hfind]
  · intro hj hu
    obtain ⟨j, hjfind⟩ := find?_isSome_of_exists
      (fun j => decide (j.id = jobId)) s.jobs (by
        obtain ⟨j, hjm, hje⟩ := hj
        exact ⟨j, hjm, by simpa using hje⟩)
    have hufind : s.users.find? (fun u => u.username = username) = none := by
      rw [List.find?_eq_none]; intro x hx; simpa using hu x hx
    simp [User.applyToJob, hjfind, hufind]
  · intro hj hu
    obtain ⟨j, hjfind⟩ := find?_isSome_of_exists
      (fun j => decide (j.id = jobId)) s.jobs (by
        obtain ⟨j, hjm, hje⟩ := hj
        exact ⟨j, hjm, by simpa using hje⟩)
    obtain ⟨u, hufind⟩ := find?_isSome_of_exists
      (fun u => decide (u.username = username)) s.users (by
        obtain ⟨u, hum, hue⟩ := hu
        exact ⟨u, hum, by simpa using hue⟩)
    simp [User.applyToJob, hjfind, hufind]

/-- Witness for C5: alice applies to the existing job 8 on the demo
state; exactly one application row is appended. -/
theorem applyToJob_spec_witness :
    ((∃ j ∈ demoDB.jobs, j.id = 8) ∧ (∃ u ∈ demoDB.users, u.username = "alice")) ∧
    (User.applyToJob "alice" 8 demoDB).1 = .ok () ∧
    (User.applyToJob "alice" 8 demoDB).2.applications =
      demoDB.applications ++ [("alice", 8)] := by
  have h := (applyToJob_spec "alice" 8 demoDB).2.2
    ⟨demoJob2, by decide, by decide⟩ ⟨demoUser, by decide, by decide⟩
  exact ⟨⟨⟨demoJob2, by decide, by decide⟩, ⟨demoUser, by decide, by decide⟩⟩,
    h.1, h.2.1⟩

/-- C10: when both the username and the job id exist, applyToJob performs
no duplicate-application check: even when the same (username, jobId) pair
is already recorded, the call succeeds (never a BadRequest error) and
appends the pair again, so the pair is then recorded at least twice. -/
theorem applyToJob_no_duplicate_check (username : String) (jobId : Nat)
    (s : DBState)
    (hj : ∃ j ∈ s.jobs, j.id = jobId) (hu : ∃ u ∈ s.users, u.username = username)
    (hdup : (username, jobId) ∈ s.applications) :
    (User.applyToJob username jobId s).1 = .ok () ∧
    errKindOf (User.applyToJob username jobId s).1 ≠ some .badRequest ∧
    (User.applyToJob username jobId s).2.applications =
      s.applications ++ [(username, jobId)] ∧
    2 ≤ (User.applyToJob username jobId s).2.applications.count
      (username, jobId) := by
  obtain ⟨j, hjfind⟩ := find?_isSome_of_exists
    (fun j => decide (j.id = jobId)) s.jobs (by
      obtain ⟨j, hjm, hje⟩ := hj
      exact ⟨j, hjm, by simpa using hje⟩)
  obtain ⟨u, hufind⟩ := find?_isSome_of_exists
    (fun u => decide (u.username = username)) s.users (by
      obtain ⟨u, hum, hue⟩ := hu
      exact ⟨u, hum, by simpa using hue⟩)
  have happ : (User.applyToJob username jobId s).2.applications =
      s.applications ++ [(username, jobId)] := by
    simp [User.applyToJob, hjfind, hufind]
  refine ⟨by simp [User.applyToJob, hjfind, hufind], ?_, happ, ?_⟩
  · simp [User.applyToJob, hjfind, hufind, errKindOf]
  · rw [happ, List.count_append]
    have h1 : 1 ≤ s.applications.count (username, jobId) :=
      List.count_pos_iff.mpr hdup
    have h2 : List.count (username, jobId) [(username, jobId)] = 1 := by
      simp
    omega

/-- Witness for C10: alice has already applied to job 7 in the demo
state, and a repeated application still succeeds and appends the pair. -/
theorem applyToJob_no_duplicate_check_witness :
    ((∃ j ∈ demoDB.jobs, j.id = 7) ∧ (∃ u ∈ demoDB.users, u.username = "alice") ∧
      ("alice", 7) ∈ demoDB.applications) ∧
    (User.applyToJob "alice" 7 demoDB).1 = .ok () ∧
    2 ≤ (User.applyToJob "alice" 7 demoDB).2.applications.count ("alice", 7) := by
  have h := applyToJob_no_duplicate_check "alice" 7 demoDB
    ⟨demoJob, by decide, by decide⟩ ⟨demoUser, by decide, by decide⟩ (by decide)
  exact ⟨⟨⟨demoJob, by decide, by decide⟩, ⟨demoUser, by decide, by decide⟩,
    by decide⟩, h.1, h.2.2.2⟩

/-- C6: authentication returns the user record without the password field
exactly when the username row exists and the supplied password matches
the stored hash; every failure — unknown username or wrong password —
produces the same fixed Unauthorized error, so a caller cannot tell from
the outcome whether the username existed. -/
theorem authenticate_spec (cmp : String → String → Bool) (username pw : String)
    (s : DBState) :
    (∀ p, User.authenticate cmp username pw s = .ok p ↔
      ∃ u, s.users.find? (fun x => x.username = username) = some u ∧
        cmp pw u.password = true ∧ p = u.toPublic) ∧
    (validCreds cmp username pw s = true →
      ∃ u, s.users.find? (fun x => x.username = username) = some u ∧
        User.authenticate cmp username pw s = .ok u.toPublic) ∧
    (validCreds cmp username pw s = false →
      User.authenticate cmp username pw s = .error invalidCredsError) ∧
    (∀ username2 pw2, validCreds cmp username pw s = false →
      validCreds cmp username2 pw2 s = false →
      User.authenticate cmp username pw s =
        User.authenticate cmp username2 pw2 s) := by
  have hcase : ∀ un pw2, validCreds cmp un pw2 s = false →
      User.authenticate cmp un pw2 s = .error invalidCredsError := by
    intro un pw2 hv
    cases hfind : s.users.find? (fun x => x.username = un) with
    | none => simp [User.authenticate, hfind]
    | some u =>
      have hv2 : cmp pw2 u.password = false := by
        simpa [validCreds, hfind] using hv
      simp [User.authenticate, hfind, hv2]
  refine ⟨?_, ?_, hcase username pw, ?_⟩
  · intro p
    cases hfind : s.users.find? (fun x => x.username = username) with
    | none => simp [User.authenticate, hfind]
    | some u =>
      by_cases hcmp : cmp pw u.password = true
      · have hauth : User.authenticate cmp username pw s = .ok u.toPublic := by
          simp [User.authenticate, hfind, hcmp]
        rw [hauth]
        constructor
        · intro h
          exact ⟨u, rfl, hcmp, (Except.ok.inj h).symm⟩
        · rintro ⟨u1, hu1, hc1, hp⟩
          obtain rfl : u = u1 := Option.some.inj hu1
          rw [hp]
      · rw [Bool.not_eq_true] at hcmp
        have hauth : User.authenticate cmp username pw s =
            .error invalidCredsError := by
          simp [User.authenticate, hfind, hcmp]
        rw [hauth]
        constructor
        · intro h
          exact absurd h (by simp)
        · rintro ⟨u1, hu1, hc1, hp⟩
          obtain rfl : u = u1 := Option.some.inj hu1
          exact absurd hc1 (by simp [hcmp])
  · intro hv
    cases hfind : s.users.find? (fun x => x.username = username) with
    | none => simp [validCreds, hfind] at hv
    | some u =>
      have hv2 : cmp pw u.password = true := by
        simpa [validCreds, hfind] using hv
      exact ⟨u, rfl, by simp [User.authenticate, hfind, hv2]⟩
  · intro username2 pw2 h1 h2
    rw [hcase username pw h1, hcase username2 pw2 h2]

/-- Witness for C6 on the demo state: authenticating the unknown user
"zed" and authenticating "alice" with a wrong password produce the very
same error result, and the correct password for "alice" succeeds with
the password-free record. -/
theorem authenticate_spec_witness :
    (validCreds demoCompare "zed" "secret" demoDB = false ∧
      validCreds demoCompare "alice" "wrong" demoDB = false ∧
      validCreds demoCompare "alice" "secret" demoDB = true) ∧
    User.authenticate demoCompare "zed" "secret" demoDB =
      User.authenticate demoCompare "alice" "wrong" demoDB ∧
    User.authenticate demoCompare "alice" "wrong" demoDB =
      .error invalidCredsError ∧
    User.authenticate demoCompare "alice" "secret" demoDB =
      .ok demoUser.toPublic := by
  have heq := (authenticate_spec demoCompare "zed" "secret" demoDB).2.2.2
    "alice" "wrong" (by decide) (by decide)
  have herr := (authenticate_spec demoCompare "alice" "wrong" demoDB).2.2.1
    (by decide)
  have hok := ((authenticate_spec demoCompare "alice" "secret" demoDB).1
    demoUser.toPublic).mpr ⟨demoUser, by decide, by decide, rfl⟩
  exact ⟨⟨by decide, by decide, by decide⟩, heq, herr, hok⟩

/-- Auxiliary: a Boolean filter of the form (not a or b) holds exactly
when a implies b. -/
theorem bool_imp_iff (a b : Bool) : ((!a || b) = true) ↔ (a = true → b = true) := by
  cases a <;> cases b <;> decide

/-- Membership in the result of Company.findAll: exactly the stored rows
accepted by the assembled WHERE clause. -/
theorem company_findAll_mem (name : Option String) (minE maxE : Option Int)
    (s : DBState) (c : Company) :
    c ∈ Company.findAll name minE maxE s ↔
      c ∈ s.companies ∧ companyRowMatches name minE maxE c = true := by
  unfold Company.findAll
  rw [List.mem_insertionSort, List.mem_filter]

/-- C2: when minEmployees is supplied (truthy), every returned company has
at least that many employees; when maxEmployees is supplied (truthy),
every returned company has at most that many; a row is returned exactly
when it satisfies the conjunction of all supplied filters; the result is
ordered by company name; and with no filters supplied the result is a
permutation of the whole companies table. -/
theorem company_findAll_spec (name : Option String) (minE maxE : Option Int)
    (s : DBState) :
    (∀ m, minE = some m → m ≠ 0 →
      ∀ c ∈ Company.findAll name minE maxE s, m ≤ c.numEmployees) ∧
    (∀ m, maxE = some m → m ≠ 0 →
      ∀ c ∈ Company.findAll name minE maxE s, c.numEmployees ≤ m) ∧
    (∀ c, c ∈ Company.findAll name minE maxE s ↔
      c ∈ s.companies ∧
      (truthyS name = true → ilikeContains (name.getD "") c.name = true) ∧
      (truthyI minE = true → minE.getD 0 < c.numEmployees) ∧
      (truthyI maxE = true → c.numEmployees < maxE.getD 0)) ∧
    List.Sorted companyLe (Company.findAll name minE maxE s) ∧
    (truthyS name = false → truthyI minE = false → truthyI maxE = false →
      (Company.findAll name minE maxE s).Perm s.companies) := by
  have hsplit : ∀ c, companyRowMatches name minE maxE c = true ↔
      (truthyS name = true → ilikeContains (name.getD "") c.name = true) ∧
      (truthyI minE = true → minE.getD 0 < c.numEmployees) ∧
      (truthyI maxE = true → c.numEmployees < maxE.getD 0) := by
    intro c
    simp only [companyRowMatches, Bool.and_eq_true, bool_imp_iff,
      decide_eq_true_eq, and_assoc]
  have hiff : ∀ c, c ∈ Company.findAll name minE maxE s ↔
      c ∈ s.companies ∧
      (truthyS name = true → ilikeContains (name.getD "") c.name = true) ∧
      (truthyI minE = true → minE.getD 0 < c.numEmployees) ∧
      (truthyI maxE = true → c.numEmployees < maxE.getD 0) := by
    intro c
    rw [company_findAll_mem, hsplit]
  refine ⟨?_, ?_, hiff, ?_, ?_⟩
  · intro m hm hm0 c hc
    have h2 := ((hiff c).mp hc).2.2.1
    have ht : truthyI minE = true := by simp [hm, truthyI, hm0]
    have := h2 ht
    rw [hm] at this
    exact le_of_lt (by simpa using this)
  · intro m hm hm0 c hc
    have h2 := ((hiff c).mp hc).2.2.2
    have ht : truthyI maxE = true := by simp [hm, truthyI, hm0]
    have := h2 ht
    rw [hm] at this
    exact le_of_lt (by simpa using this)
  · exact List.sorted_insertionSort companyLe _
  · intro h1 h2 h3
    have hall : s.companies.filter (companyRowMatches name minE maxE) =
        s.companies := by
      rw [List.filter_eq_self]
      intro a _
      simp [companyRowMatches, h1, h2, h3]
    unfold Company.findAll
    rw [hall]
    exact List.perm_insertionSort companyLe s.companies

/-- Witness for C2 on the demo state with minEmployees 5: only the large
company is returned, its count is at least 5, and the result is sorted. -/
theorem company_findAll_spec_witness :
    (some (5 : Int) = some 5 ∧ (5 : Int) ≠ 0 ∧
      demoCompany ∈ Company.findAll none (some 5) none demoDB) ∧
    5 ≤ demoCompany.numEmployees ∧
    List.Sorted companyLe (Company.findAll none (some 5) none demoDB) ∧
    (Company.findAll none none none demoDB).Perm demoDB.companies := by
  have h := company_findAll_spec none (some 5) none demoDB
  have hmem : demoCompany ∈ Company.findAll none (some 5) none demoDB :=
    (h.2.2.1 demoCompany).mpr ⟨by decide, by decide, by decide, by decide⟩
  have hperm := (company_findAll_spec none none none demoDB).2.2.2.2
    rfl rfl rfl
  exact ⟨⟨rfl, by decide, hmem⟩,
    h.1 5 rfl (by decide) demoCompany hmem, h.2.2.2.1, hperm⟩

/-- The Boolean salary condition read as a proposition. -/
theorem salaryCond_iff (m : Int) (r : JobRow) :
    salaryCond m r.salary = true ↔ salaryAtLeast m r := by
  cases hr : r.salary <;> simp [salaryCond, salaryAtLeast, hr]

/-- The Boolean equity condition read as a proposition. -/
theorem equityCond_iff (r : JobRow) :
    equityCond r.equity = true ↔ equityPositive r := by
  cases hr : r.equity <;> simp [equityCond, equityPositive, hr]

/-- Inner fold of the WHERE-clause assembly: from index 1 on, every
filter is prefixed with "AND " and suffixed with a space. -/
theorem concatFilters_foldl (l : List String) (k : Nat) (hk : k ≠ 0) (acc : String) :
    List.foldl
      (fun acc p => acc ++ (if p.1 ≠ 0 then "AND " else "") ++ (p.2 ++ " "))
      acc (List.enumFrom k l) =
    acc ++ sqlJoin (l.map (fun g => "AND " ++ g ++ " ")) := by
  induction l generalizing k acc with
  | nil => simp [sqlJoin]
  | cons x xs ih =>
    rw [List.enumFrom_cons, List.foldl_cons, ih (k + 1) (by omega)]
    simp [sqlJoin, hk, String.append_assoc]

/-- The assembled WHERE clause of an empty filter list is empty. -/
theorem concatenatedFilters_nil : concatenatedFilters [] = "" := rfl

/-- The assembled WHERE clause of a non-empty filter list: "WHERE ", the
first filter and a space, then every further filter prefixed by "AND "
and suffixed by a space. -/
theorem concatenatedFilters_cons (f : String) (rest : List String) :
    concatenatedFilters (f :: rest) =
      "WHERE " ++ (f ++ " ") ++ sqlJoin (rest.map (fun g => "AND " ++ g ++ " ")) := by
  unfold concatenatedFilters
  rw [if_pos (by simp)]
  rw [List.enum_cons, List.foldl_cons]
  rw [concatFilters_foldl rest 1 (by omega)]
  simp [String.append_assoc]

/-- Membership in the result of Job.findAll: exactly the joined rows
accepted by the assembled WHERE clause. -/
theorem job_findAll_mem (minSalary : Option Int) (hasEquity : Bool)
    (title : Option String) (s : DBState) (r : JobRow) :
    r ∈ Job.findAll minSalary hasEquity title s ↔
      r ∈ s.jobs.map (jobRowOf s) ∧
      jobRowMatches minSalary hasEquity title r = true := by
  unfold Job.findAll
  rw [List.mem_insertionSort, List.mem_filter]

/-- C8: Job.findAll appends exactly one predicate per truthy parameter —
the title and minSalary predicates each with one positional value
numbered by the position of the pushed value, the hasEquity predicate as
the literal "equity > 0" with no bound value; the clause is prefixed by
WHERE exactly when at least one filter is present, with "AND " before
every predicate but the first; a row is returned exactly when it
satisfies the conjunction of the supplied predicates; and the result is
ordered by company name then job title. -/
theorem job_findAll_spec (minSalary : Option Int) (hasEquity : Bool)
    (title : Option String) (s : DBState) :
    (jobBuildFilters minSalary hasEquity title).1 =
      (if truthyS title then ["title ILIKE \x27%\x27 ||$1 || \x27%\x27"] else []) ++
      (if truthyI minSalary then
        ["salary >= $" ++ toString ((if truthyS title then 1 else 0) + 1)] else []) ++
      (if hasEquity then ["equity > 0 "] else []) ∧
    (jobBuildFilters minSalary hasEquity title).2 =
      (if truthyS title then [Jval.str (title.getD "")] else []) ++
      (if truthyI minSalary then [Jval.num (minSalary.getD 0)] else []) ∧
    (jobBuildFilters minSalary hasEquity title).1.length =
      (if truthyS title then 1 else 0) + (if truthyI minSalary then 1 else 0) +
      (if hasEquity then 1 else 0) ∧
    (jobBuildFilters minSalary hasEquity title).2.length =
      (if truthyS title then 1 else 0) + (if truthyI minSalary then 1 else 0) ∧
    concatenatedFilters [] = "" ∧
    (∀ f rest, concatenatedFilters (f :: rest) =
      "WHERE " ++ (f ++ " ") ++ sqlJoin (rest.map (fun g => "AND " ++ g ++ " "))) ∧
    (∀ r, r ∈ Job.findAll minSalary hasEquity title s ↔
      r ∈ s.jobs.map (jobRowOf s) ∧
      (truthyS title = true → ilikeContains (title.getD "") r.title = true) ∧
      (truthyI minSalary = true → salaryAtLeast (minSalary.getD 0) r) ∧
      (hasEquity = true → equityPositive r)) ∧
    List.Sorted jobRowLe (Job.findAll minSalary hasEquity title s) := by
  refine ⟨?_, ?_, ?_, ?_, concatenatedFilters_nil, concatenatedFilters_cons, ?_, ?_⟩
  · cases ht : truthyS title <;> cases hs : truthyI minSalary <;>
      cases hasEquity <;> simp [jobBuildFilters, ht, hs] <;> rfl
  · cases ht : truthyS title <;> cases hs : truthyI minSalary <;>
      cases hasEquity <;> simp [jobBuildFilters, ht, hs]
  · cases ht : truthyS title <;> cases hs : truthyI minSalary <;>
      cases hasEquity <;> simp [jobBuildFilters, ht, hs]
  · cases ht : truthyS title <;> cases hs : truthyI minSalary <;>
      cases hasEquity <;> simp [jobBuildFilters, ht, hs]
  · intro r
    rw [job_findAll_mem]
    simp only [jobRowMatches, Bool.and_eq_true, bool_imp_iff,
      salaryCond_iff, equityCond_iff, and_assoc]
  · exact List.sorted_insertionSort jobRowLe _

/-- Witness for C8: all three filters supplied; the assembled filter list
and a two-filter WHERE clause evaluate to their literal strings, and the
engineering job row passes all three filters. -/
theorem job_findAll_spec_witness :
    (jobBuildFilters (some 100) true (some "eng")).1 =
      ["title ILIKE \x27%\x27 ||$1 || \x27%\x27", "salary >= $2", "equity > 0 "] ∧
    concatenatedFilters ["salary >= $1", "equity > 0 "] =
      "WHERE salary >= $1 AND equity > 0  " ∧
    demoJobRow ∈ Job.findAll (some 100) true (some "eng") demoDB ∧
    List.Sorted jobRowLe (Job.findAll (some 100) true (some "eng") demoDB) := by
  have h := job_findAll_spec (some 100) true (some "eng") demoDB
  refine ⟨h.1.trans (by decide), ?_, ?_, h.2.2.2.2.2.2.2⟩
  · exact (h.2.2.2.2.2.1 "salary >= $1" ["equity > 0 "]).trans (by decide)
  · exact (h.2.2.2.2.2.2.1 demoJobRow).mpr
      ⟨by decide, by decide, fun _ => ⟨90000, by decide, by decide⟩,
       fun _ => ⟨1, by decide, by decide⟩⟩

